import Mathlib

/-!
Shallow embedding of the CPU code cache of the duckstation repository
(`src/core/cpu_code_cache.h`): the block key, the code block record, the
flat dispatch table (`BlockFunctionLookup`) and the page-driven block
invalidation of `CodeCache`.

Machine integers (`u32`) are embedded as `Nat`; wherever the C++ code can
wrap, the embedding reduces modulo `2 ^ 32` explicitly.  Bit extraction by
a low-bit mask `2 ^ k - 1` is written with `&&&` exactly as the source
writes it, and bridge lemmas below restate those masks as `%` so that
`omega` can reason about them.  Host code pointers (`void (*)(Core*)`) are
embedded as `Nat` values; a call of such a pointer is embedded as returning
the pointer that is invoked together with its argument.
-/

namespace CPU

/-- Modelled from the spec: `PHYSICAL_MEMORY_ADDRESS_MASK` lives in
`cpu_types.h`, which is not under `src/`.  The guest physical address space
is 512 MiB; aliased mirrors collapse under this mask (`2 ^ 29 - 1`). -/
def PHYSICAL_MEMORY_ADDRESS_MASK : Nat := 0x1FFFFFFF

/-- Modelled from the spec: `CPU_CODE_CACHE_PAGE_SIZE` lives in
`cpu_types.h`, which is not under `src/`.  Code-cache pages are 1 KiB. -/
def CPU_CODE_CACHE_PAGE_SIZE : Nat := 1024

namespace Bus

/-- Modelled from the spec: `bus.h` is not under `src/`.  Size of the
emulated machine's RAM region (2 MiB). -/
def RAM_SIZE : Nat := 0x200000

/-- Modelled from the spec: mask selecting an offset inside the RAM
region, `RAM_SIZE - 1`. -/
def RAM_MASK : Nat := RAM_SIZE - 1

/-- Modelled from the spec: physical base address of the BIOS region. -/
def BIOS_BASE : Nat := 0x1FC00000

/-- Modelled from the spec: size of the BIOS region (512 KiB). -/
def BIOS_SIZE : Nat := 0x80000

/-- Modelled from the spec: mask selecting an offset inside the BIOS
region, `BIOS_SIZE - 1`. -/
def BIOS_MASK : Nat := BIOS_SIZE - 1

end Bus

/-- Bridge: masking with `1 = 2 ^ 1 - 1` is reduction mod 2. -/
theorem and_mask_one (n : Nat) : n &&& 1 = n % 2 := by
  simp

/-- Bridge: masking with `3 = 2 ^ 2 - 1` is reduction mod 4. -/
theorem and_mask_three (n : Nat) : n &&& 3 = n % 4 := by
  have h := Nat.and_pow_two_sub_one_eq_mod n 2
  norm_num at h
  exact h

/-- Bridge: masking with `0x3FFFFFFF = 2 ^ 30 - 1` is reduction mod `2 ^ 30`. -/
theorem and_mask_thirty (n : Nat) : n &&& 0x3FFFFFFF = n % 0x40000000 := by
  have h := Nat.and_pow_two_sub_one_eq_mod n 30
  norm_num at h
  exact h

/-- Bridge: masking with `PHYSICAL_MEMORY_ADDRESS_MASK = 2 ^ 29 - 1` is
reduction mod `2 ^ 29`. -/
theorem and_phys_mask (n : Nat) :
    n &&& PHYSICAL_MEMORY_ADDRESS_MASK = n % 0x20000000 := by
  have h := Nat.and_pow_two_sub_one_eq_mod n 29
  norm_num at h
  simpa [PHYSICAL_MEMORY_ADDRESS_MASK] using h

/-- Bridge: masking with `Bus.RAM_MASK = 2 ^ 21 - 1` is reduction mod `2 ^ 21`. -/
theorem and_ram_mask (n : Nat) : n &&& Bus.RAM_MASK = n % 0x200000 := by
  have h := Nat.and_pow_two_sub_one_eq_mod n 21
  norm_num at h
  simpa [Bus.RAM_MASK, Bus.RAM_SIZE] using h

/-- Bridge: masking with `Bus.BIOS_MASK = 2 ^ 19 - 1` is reduction mod `2 ^ 19`. -/
theorem and_bios_mask (n : Nat) : n &&& Bus.BIOS_MASK = n % 0x80000 := by
  have h := Nat.and_pow_two_sub_one_eq_mod n 19
  norm_num at h
  simpa [Bus.BIOS_MASK, Bus.BIOS_SIZE] using h

/-- Bridge: `>>> 2` is division by 4. -/
theorem shiftRight_two (n : Nat) : n >>> 2 = n / 4 :=
  Nat.shiftRight_eq_div_pow n 2

/-- Bridge: `<<< 2` is multiplication by 4. -/
theorem shiftLeft_two (n : Nat) : n <<< 2 = n * 4 :=
  Nat.shiftLeft_eq n 2

/-- Embeds `union CodeBlockKey`: the raw 32-bit value `bits`.  The two
bit fields `user_mode` (bit 0) and `aligned_pc` (bits 2–31) are views of
`bits`; bit 1 belongs to neither field. -/
structure CodeBlockKey where
  bits : Nat
deriving DecidableEq

/-- Embeds `BitField<u32, bool, 0, 1> user_mode`: read bit 0 of `bits`. -/
def CodeBlockKey.user_mode (k : CodeBlockKey) : Bool := k.bits &&& 1 == 1

/-- Embeds `BitField<u32, u32, 2, 30> aligned_pc`: read bits 2–31 of `bits`. -/
def CodeBlockKey.aligned_pc (k : CodeBlockKey) : Nat :=
  (k.bits >>> 2) &&& 0x3FFFFFFF

/-- Embeds `GetPC() { return aligned_pc << 2; }`. -/
def CodeBlockKey.GetPC (k : CodeBlockKey) : Nat := k.aligned_pc <<< 2

/-- Embeds `SetPC(u32 pc) { aligned_pc = pc >> 2; }`: the bit-field store
writes `(pc >> 2)` masked to 30 bits into bits 2–31 and keeps bits 0–1;
the two parts are disjoint so their `|` is `+`. -/
def CodeBlockKey.SetPC (k : CodeBlockKey) (pc : Nat) : CodeBlockKey :=
  ⟨(k.bits &&& 3) + (((pc >>> 2) &&& 0x3FFFFFFF) <<< 2)⟩

/-- Embeds `GetPCPhysicalAddress() { return (aligned_pc << 2) & PHYSICAL_MEMORY_ADDRESS_MASK; }`. -/
def CodeBlockKey.GetPCPhysicalAddress (k : CodeBlockKey) : Nat :=
  (k.aligned_pc <<< 2) &&& PHYSICAL_MEMORY_ADDRESS_MASK

/-- Embeds `operator==`: compares the whole raw `bits` value. -/
def CodeBlockKey.beq (a b : CodeBlockKey) : Bool := a.bits == b.bits

/-- Normal form of `user_mode` for arithmetic reasoning. -/
theorem CodeBlockKey.user_mode_eq (k : CodeBlockKey) :
    k.user_mode = decide (k.bits % 2 = 1) := by
  simp only [CodeBlockKey.user_mode, and_mask_one]
  by_cases h : k.bits % 2 = 1 <;> simp [h]

/-- Normal form of `aligned_pc` for arithmetic reasoning. -/
theorem CodeBlockKey.aligned_pc_eq (k : CodeBlockKey) :
    k.aligned_pc = k.bits / 4 % 0x40000000 := by
  simp [CodeBlockKey.aligned_pc, and_mask_thirty, shiftRight_two]

/-- Normal form of `GetPC` for arithmetic reasoning. -/
theorem CodeBlockKey.getPC_eq (k : CodeBlockKey) :
    k.GetPC = k.bits / 4 % 0x40000000 * 4 := by
  simp [CodeBlockKey.GetPC, CodeBlockKey.aligned_pc_eq, shiftLeft_two]

/-- Normal form of `GetPCPhysicalAddress` for arithmetic reasoning. -/
theorem CodeBlockKey.getPCPhysicalAddress_eq (k : CodeBlockKey) :
    k.GetPCPhysicalAddress = k.bits / 4 % 0x40000000 * 4 % 0x20000000 := by
  simp [CodeBlockKey.GetPCPhysicalAddress, CodeBlockKey.aligned_pc_eq,
    shiftLeft_two, and_phys_mask]

/-- Normal form of `SetPC` for arithmetic reasoning. -/
theorem CodeBlockKey.setPC_eq (k : CodeBlockKey) (pc : Nat) :
    k.SetPC pc = ⟨k.bits % 4 + pc / 4 % 0x40000000 * 4⟩ := by
  simp [CodeBlockKey.SetPC, and_mask_three, and_mask_thirty, shiftRight_two,
    shiftLeft_two]

/-- Embeds `struct CodeBlockInstruction`: one decoded guest instruction
(the raw `Instruction` word embedded as `Nat`), its PC, and the static
flags. -/
structure CodeBlockInstruction where
  instruction : Nat
  pc : Nat
  is_branch_instruction : Bool
  is_branch_delay_slot : Bool
  is_load_instruction : Bool
  is_store_instruction : Bool
  is_load_delay_slot : Bool
  is_last_instruction : Bool
  has_load_delay : Bool
  can_trap : Bool
deriving DecidableEq

/-- Embeds `struct CodeBlock`.  The C++ record stores raw
`CodeBlock*` pointers in `link_predecessors` / `link_successors`; the
embedding stores the linked blocks' key bits as handles.  `host_code` is
the nullable generated-code entry pointer. -/
structure CodeBlock where
  key : CodeBlockKey
  host_code_size : Nat
  host_code : Option Nat
  instructions : List CodeBlockInstruction
  link_predecessors : List Nat
  link_successors : List Nat
  contains_loadstore_instructions : Bool
  invalidated : Bool
deriving DecidableEq

/-- Embeds `GetSizeInBytes() { return static_cast<u32>(instructions.size()) * sizeof(Instruction); }`:
the `size_t` length truncated to `u32`, times 4, in `u32` arithmetic. -/
def CodeBlock.GetSizeInBytes (b : CodeBlock) : Nat :=
  b.instructions.length % 2 ^ 32 * 4 % 2 ^ 32

/-- Embeds `GetStartPageIndex() { return key.GetPCPhysicalAddress() / CPU_CODE_CACHE_PAGE_SIZE; }`. -/
def CodeBlock.GetStartPageIndex (b : CodeBlock) : Nat :=
  b.key.GetPCPhysicalAddress / CPU_CODE_CACHE_PAGE_SIZE

/-- Embeds `GetEndPageIndex() { return (key.GetPCPhysicalAddress() + GetSizeInBytes()) / CPU_CODE_CACHE_PAGE_SIZE; }`;
the `u32` addition wraps mod `2 ^ 32`. -/
def CodeBlock.GetEndPageIndex (b : CodeBlock) : Nat :=
  (b.key.GetPCPhysicalAddress + b.GetSizeInBytes) % 2 ^ 32 /
    CPU_CODE_CACHE_PAGE_SIZE

/-- Embeds `IsInRAM() { return key.GetPCPhysicalAddress() < 0x200000; }` —
the bound is the literal `0x200000`, not `Bus::RAM_SIZE`. -/
def CodeBlock.IsInRAM (b : CodeBlock) : Bool :=
  b.key.GetPCPhysicalAddress < 0x200000

/-- Embeds the slot counts of `BlockFunctionLookup`:
`RAM_SLOT_COUNT = Bus::RAM_SIZE / 4`. -/
def RAM_SLOT_COUNT : Nat := Bus.RAM_SIZE / 4

/-- Embeds `BIOS_SLOT_COUNT = Bus::BIOS_SIZE / 4`. -/
def BIOS_SLOT_COUNT : Nat := Bus.BIOS_SIZE / 4

/-- Embeds `TOTAL_SLOT_COUNT = RAM_SLOT_COUNT + BIOS_SLOT_COUNT`. -/
def TOTAL_SLOT_COUNT : Nat := RAM_SLOT_COUNT + BIOS_SLOT_COUNT

/-- Embeds the guest CPU execution context handed to a dispatched host
function: `cpu->GetRegs().pc` is embedded as the field `pc`. -/
structure Core where
  pc : Nat
deriving DecidableEq

/-- Embeds `BlockFunctionLookup`: the flat `std::array` of
`TOTAL_SLOT_COUNT` host-code pointers, embedded as a function from slot
index to pointer value. -/
structure BlockFunctionLookup where
  m_slots : Nat → Nat

/-- Embeds `BlockFunctionLookup::GetArrayIndex`. -/
def BlockFunctionLookup.GetArrayIndex (pc : Nat) : Nat :=
  if (pc &&& PHYSICAL_MEMORY_ADDRESS_MASK) ≥ Bus.BIOS_BASE then
    RAM_SLOT_COUNT + ((pc &&& Bus.BIOS_MASK) >>> 2)
  else
    (pc &&& Bus.RAM_MASK) >>> 2

/-- Embeds `Reset(default_function) { m_slots.fill(default_function); }`:
builds the table in which every slot holds `default_function`. -/
def BlockFunctionLookup.Reset (default_function : Nat) : BlockFunctionLookup :=
  ⟨fun _ => default_function⟩

/-- Embeds `SetBlockPointer(pc, function) { m_slots[GetArrayIndex(pc)] = function; }`. -/
def BlockFunctionLookup.SetBlockPointer (l : BlockFunctionLookup) (pc fn : Nat) :
    BlockFunctionLookup :=
  ⟨fun i => if i = BlockFunctionLookup.GetArrayIndex pc then fn else l.m_slots i⟩

/-- Embeds `Dispatch(cpu) { m_slots[GetArrayIndex(cpu->GetRegs().pc)](cpu); }`:
the call through the stored pointer is embedded as returning the invoked
pointer paired with its argument. -/
def BlockFunctionLookup.Dispatch (l : BlockFunctionLookup) (cpu : Core) :
    Nat × Core :=
  (l.m_slots (BlockFunctionLookup.GetArrayIndex cpu.pc), cpu)

/-- Helper predicate: the PC's physical address falls inside the RAM
region or inside the BIOS region — the addresses the dispatch table is
sized for. -/
def inRAMOrBIOS (pc : Nat) : Bool :=
  (pc &&& PHYSICAL_MEMORY_ADDRESS_MASK) < Bus.RAM_SIZE ||
    (Bus.BIOS_BASE ≤ (pc &&& PHYSICAL_MEMORY_ADDRESS_MASK) &&
      (pc &&& PHYSICAL_MEMORY_ADDRESS_MASK) < Bus.BIOS_BASE + Bus.BIOS_SIZE)

/-- Shared bound: `GetArrayIndex` always lands inside the slot array. -/
theorem getArrayIndex_lt_total (pc : Nat) :
    BlockFunctionLookup.GetArrayIndex pc < TOTAL_SLOT_COUNT := by
  unfold BlockFunctionLookup.GetArrayIndex
  simp only [and_phys_mask, and_bios_mask, and_ram_mask, shiftRight_two,
    TOTAL_SLOT_COUNT, RAM_SLOT_COUNT, BIOS_SLOT_COUNT, Bus.RAM_SIZE,
    Bus.BIOS_SIZE, Bus.BIOS_BASE]
  split <;> omega

/-- A block's guest byte range overlaps physical code page `p`: the page
lies between the block's start page index and end page index, the span
the code cache registers in its page map.  Derived from the source's
`GetStartPageIndex` / `GetEndPageIndex`. -/
def blockOverlapsPage (b : CodeBlock) (p : Nat) : Bool :=
  b.GetStartPageIndex ≤ p && p ≤ b.GetEndPageIndex

/-- Modelled from the spec: the per-block effect of
`CodeCache::InvalidateBlocksWithPageIndex`, whose body is in
`cpu_code_cache.cpp`, absent from `src/`.  A block overlapping the page
has `invalidated` set and is unlinked (its own link lists emptied); every
other block loses its link edges to the invalidated blocks (`UnlinkUnit`
severs every edge where the unit is either end) and is otherwise
untouched. -/
def invalidateOne (victims : List Nat) (p : Nat) (b : CodeBlock) : CodeBlock :=
  if blockOverlapsPage b p then
    { b with invalidated := true, link_predecessors := [], link_successors := [] }
  else
    { b with
      link_predecessors := b.link_predecessors.filter fun k => !victims.contains k,
      link_successors := b.link_successors.filter fun k => !victims.contains k }

/-- Modelled from the spec: `InvalidateUnitsOnPage(pageIndex)` — "for
every unit overlapping that page, set `invalidated = true` and
`UnlinkUnit`; does not immediately free the unit."  The cache's primary
table is embedded as the list of owned blocks; no block is removed. -/
def InvalidateBlocksWithPageIndex (st : List CodeBlock) (p : Nat) :
    List CodeBlock :=
  st.map
    (invalidateOne ((st.filter fun b => blockOverlapsPage b p).map
      fun b => b.key.bits) p)

/-- Invalidation never changes a block's key. -/
theorem invalidateOne_key (v : List Nat) (p : Nat) (b : CodeBlock) :
    (invalidateOne v p b).key = b.key := by
  unfold invalidateOne
  split <;> rfl

/-- Invalidation never changes a block's instruction list. -/
theorem invalidateOne_instructions (v : List Nat) (p : Nat) (b : CodeBlock) :
    (invalidateOne v p b).instructions = b.instructions := by
  unfold invalidateOne
  split <;> rfl

/-- Invalidation preserves the page-overlap predicate. -/
theorem invalidateOne_overlap (v : List Nat) (p q : Nat) (b : CodeBlock) :
    blockOverlapsPage (invalidateOne v p b) q = blockOverlapsPage b q := by
  simp [blockOverlapsPage, CodeBlock.GetStartPageIndex, CodeBlock.GetEndPageIndex,
    CodeBlock.GetSizeInBytes, invalidateOne_key, invalidateOne_instructions]

/-- Test fixture: a decoded instruction with all flags clear. -/
def sampleInstruction : CodeBlockInstruction :=
  ⟨0, 0, false, false, false, false, false, false, false, false⟩

/-- Test fixture: a block with the given key bits, `n` instructions and
the given link lists. -/
def sampleBlock (bits n : Nat) (preds succs : List Nat) : CodeBlock :=
  ⟨⟨bits⟩, 0, none, List.replicate n sampleInstruction, preds, succs, false, false⟩

/-- Test fixture: a two-block cache state; the block at PC 0 links to the
block at PC 0x1000 and back. -/
def sampleState : List CodeBlock :=
  [sampleBlock 0 1 [0x1000] [0x1000], sampleBlock 0x1000 1 [0] [0]]

/-- Claim C3, counterexample: two keys that agree on `user_mode` (bit 0)
and on `aligned_pc` (bits 2–31) but differ in bit 1 — which belongs to
neither bit field — compare unequal under `operator==`, so equality is
not determined by the two fields alone. -/
theorem codeBlockKey_eq_bitOne_counterexample :
    CodeBlockKey.user_mode ⟨0⟩ = CodeBlockKey.user_mode ⟨2⟩ ∧
    CodeBlockKey.aligned_pc ⟨0⟩ = CodeBlockKey.aligned_pc ⟨2⟩ ∧
    CodeBlockKey.beq ⟨0⟩ ⟨2⟩ = false := by
  decide

/-- Claim C3, amended: `operator==` compares the whole 32-bit `bits`
value; for keys whose bit 1 is clear (as every key built by `SetPC` and a
`user_mode` store from a zero value is), this is equivalent to agreeing
on `user_mode` and on `aligned_pc`. -/
theorem codeBlockKey_eq_iff_bits (a b : CodeBlockKey)
    (ha : a.bits < 2 ^ 32) (hb : b.bits < 2 ^ 32)
    (ha1 : a.bits / 2 % 2 = 0) (hb1 : b.bits / 2 % 2 = 0) :
    (CodeBlockKey.beq a b = true ↔ a.bits = b.bits) ∧
    (CodeBlockKey.beq a b = true ↔
      (a.user_mode = b.user_mode ∧ a.aligned_pc = b.aligned_pc)) := by
  constructor
  · simp [CodeBlockKey.beq]
  · simp only [CodeBlockKey.beq, beq_iff_eq, CodeBlockKey.user_mode_eq,
      CodeBlockKey.aligned_pc_eq, decide_eq_decide]
    omega

/-- Claim C3, witness: the amended equivalence evaluated on a concrete
pair of equal keys. -/
theorem codeBlockKey_eq_iff_bits_witness :
    (0x1001 : Nat) < 2 ^ 32 ∧ (0x1001 : Nat) / 2 % 2 = 0 ∧
    ((CodeBlockKey.beq ⟨0x1001⟩ ⟨0x1001⟩ = true ↔
        (0x1001 : Nat) = (0x1001 : Nat)) ∧
      (CodeBlockKey.beq ⟨0x1001⟩ ⟨0x1001⟩ = true ↔
        (CodeBlockKey.user_mode ⟨0x1001⟩ = CodeBlockKey.user_mode ⟨0x1001⟩ ∧
          CodeBlockKey.aligned_pc ⟨0x1001⟩ = CodeBlockKey.aligned_pc ⟨0x1001⟩))) :=
  ⟨by norm_num, by norm_num,
    codeBlockKey_eq_iff_bits ⟨0x1001⟩ ⟨0x1001⟩ (by norm_num) (by norm_num)
      (by norm_num) (by norm_num)⟩

/-- Claim C6: for a 32-bit `pc`, `SetPC` leaves `user_mode` untouched and
`GetPC` afterwards returns `pc` with its low two bits cleared; in
particular a 4-byte-aligned `pc` round-trips exactly. -/
theorem setPC_getPC_roundtrip (k : CodeBlockKey) (pc : Nat) (h : pc < 2 ^ 32) :
    (k.SetPC pc).user_mode = k.user_mode ∧
    (k.SetPC pc).GetPC = pc - pc % 4 ∧
    (pc % 4 = 0 → (k.SetPC pc).GetPC = pc) := by
  simp only [CodeBlockKey.setPC_eq, CodeBlockKey.user_mode_eq,
    CodeBlockKey.getPC_eq, decide_eq_decide]
  omega

/-- Claim C6, witness: the round-trip evaluated at `pc = 0x1000` on a key
with `user_mode` set. -/
theorem setPC_getPC_roundtrip_witness :
    (0x1000 : Nat) < 2 ^ 32 ∧
    ((CodeBlockKey.mk 1).SetPC 0x1000).user_mode = (CodeBlockKey.mk 1).user_mode ∧
    ((CodeBlockKey.mk 1).SetPC 0x1000).GetPC = 0x1000 - 0x1000 % 4 ∧
    ((0x1000 : Nat) % 4 = 0 → ((CodeBlockKey.mk 1).SetPC 0x1000).GetPC = 0x1000) :=
  ⟨by norm_num, setPC_getPC_roundtrip ⟨1⟩ 0x1000 (by norm_num)⟩

/-- Claim C7: for any block whose instruction count fits the `u32`
arithmetic (every real block does — blocks live inside the 2 MiB RAM or
512 KiB BIOS), `GetSizeInBytes` is the instruction count times the fixed
4-byte instruction width. -/
theorem getSizeInBytes_eq_count_mul_four (b : CodeBlock)
    (h : b.instructions.length < 2 ^ 30) :
    b.GetSizeInBytes = b.instructions.length * 4 := by
  unfold CodeBlock.GetSizeInBytes
  omega

/-- Claim C7, witness: a concrete two-instruction block has byte size 8. -/
theorem getSizeInBytes_eq_count_mul_four_witness :
    (sampleBlock 0 2 [] []).instructions.length < 2 ^ 30 ∧
    (sampleBlock 0 2 [] []).GetSizeInBytes =
      (sampleBlock 0 2 [] []).instructions.length * 4 :=
  ⟨by simp [sampleBlock], getSizeInBytes_eq_count_mul_four (sampleBlock 0 2 [] [])
    (by simp [sampleBlock])⟩

/-- Claim C8: `IsInRAM` holds exactly when the key's physical address —
the PC reduced modulo the 512 MiB physical window — is strictly below the
literal `0x200000`; the definition never consults `Bus.RAM_SIZE`. -/
theorem isInRAM_iff_lt_literal (b : CodeBlock) :
    b.IsInRAM = true ↔ b.key.GetPC % 0x20000000 < 0x200000 := by
  simp [CodeBlock.IsInRAM, CodeBlockKey.getPCPhysicalAddress_eq,
    CodeBlockKey.getPC_eq]

/-- Claim C8, witness: the equivalence evaluated on a concrete block at
PC 0x1000. -/
theorem isInRAM_iff_lt_literal_witness :
    (sampleBlock 0x1000 1 [] []).IsInRAM = true ↔
      (sampleBlock 0x1000 1 [] []).key.GetPC % 0x20000000 < 0x200000 :=
  isInRAM_iff_lt_literal (sampleBlock 0x1000 1 [] [])

/-- Claim C10: absent `u32` wrap-around, `GetEndPageIndex` is
`(physical address + size in bytes) / CPU_CODE_CACHE_PAGE_SIZE`; for a
block of positive size ending exactly on a page boundary this is one more
than the page index of the block's last byte, and for an empty block it
coincides with `GetStartPageIndex`. -/
theorem endPageIndex_formula (b : CodeBlock)
    (h : b.key.GetPCPhysicalAddress + b.GetSizeInBytes < 2 ^ 32) :
    b.GetEndPageIndex =
      (b.key.GetPCPhysicalAddress + b.GetSizeInBytes) / CPU_CODE_CACHE_PAGE_SIZE ∧
    (0 < b.GetSizeInBytes →
      (b.key.GetPCPhysicalAddress + b.GetSizeInBytes) % CPU_CODE_CACHE_PAGE_SIZE = 0 →
      b.GetEndPageIndex =
        (b.key.GetPCPhysicalAddress + b.GetSizeInBytes - 1) /
          CPU_CODE_CACHE_PAGE_SIZE + 1) ∧
    (b.instructions = [] → b.GetStartPageIndex = b.GetEndPageIndex) := by
  refine ⟨?_, fun h1 h2 => ?_, fun he => ?_⟩
  · unfold CodeBlock.GetEndPageIndex
    simp only [CPU_CODE_CACHE_PAGE_SIZE]
    omega
  · unfold CodeBlock.GetEndPageIndex
    simp only [CPU_CODE_CACHE_PAGE_SIZE] at *
    omega
  · have hs : b.GetSizeInBytes = 0 := by simp [CodeBlock.GetSizeInBytes, he]
    unfold CodeBlock.GetStartPageIndex CodeBlock.GetEndPageIndex
    simp only [CPU_CODE_CACHE_PAGE_SIZE] at *
    omega

/-- Claim C10, witness: a one-instruction block at physical address
0x3FC ends exactly on the first page boundary; its end page index is 1,
one past page 0 holding its last byte. -/
theorem endPageIndex_formula_witness :
    (sampleBlock 0x3FC 1 [] []).key.GetPCPhysicalAddress +
        (sampleBlock 0x3FC 1 [] []).GetSizeInBytes < 2 ^ 32 ∧
    ((sampleBlock 0x3FC 1 [] []).GetEndPageIndex =
        ((sampleBlock 0x3FC 1 [] []).key.GetPCPhysicalAddress +
          (sampleBlock 0x3FC 1 [] []).GetSizeInBytes) /
          CPU_CODE_CACHE_PAGE_SIZE ∧
      (0 < (sampleBlock 0x3FC 1 [] []).GetSizeInBytes →
        ((sampleBlock 0x3FC 1 [] []).key.GetPCPhysicalAddress +
          (sampleBlock 0x3FC 1 [] []).GetSizeInBytes) %
          CPU_CODE_CACHE_PAGE_SIZE = 0 →
        (sampleBlock 0x3FC 1 [] []).GetEndPageIndex =
          ((sampleBlock 0x3FC 1 [] []).key.GetPCPhysicalAddress +
            (sampleBlock 0x3FC 1 [] []).GetSizeInBytes - 1) /
            CPU_CODE_CACHE_PAGE_SIZE + 1) ∧
      ((sampleBlock 0x3FC 1 [] []).instructions = [] →
        (sampleBlock 0x3FC 1 [] []).GetStartPageIndex =
          (sampleBlock 0x3FC 1 [] []).GetEndPageIndex)) :=
  ⟨by decide, endPageIndex_formula (sampleBlock 0x3FC 1 [] []) (by decide)⟩

/-- Claim C9: `GetArrayIndex` maps every 32-bit PC — in range or not —
strictly below `TOTAL_SLOT_COUNT`, so `SetBlockPointer` and `Dispatch`
never index the slot array out of bounds; out-of-range PCs are masked
into some valid RAM or BIOS slot. -/
theorem getArrayIndex_in_bounds (pc : Nat) :
    BlockFunctionLookup.GetArrayIndex pc < TOTAL_SLOT_COUNT :=
  getArrayIndex_lt_total pc

/-- Claim C4: after `Reset f` every slot of the table holds `f`, and a
dispatch at any in-range PC invokes `f` on the given CPU. -/
theorem reset_fills_all_slots (f : Nat) :
    (∀ i, i < TOTAL_SLOT_COUNT → (BlockFunctionLookup.Reset f).m_slots i = f) ∧
    ∀ cpu : Core, inRAMOrBIOS cpu.pc = true →
      (BlockFunctionLookup.Reset f).Dispatch cpu = (f, cpu) :=
  ⟨fun _ _ => rfl, fun _ _ => rfl⟩

/-- Claim C4, witness: slot 3 of a reset table holds the trampoline, and
dispatch at the RAM PC 0x1000 invokes it. -/
theorem reset_fills_all_slots_witness :
    (3 < TOTAL_SLOT_COUNT ∧ (BlockFunctionLookup.Reset 7).m_slots 3 = 7) ∧
    (inRAMOrBIOS 0x1000 = true ∧
      (BlockFunctionLookup.Reset 7).Dispatch ⟨0x1000⟩ = (7, ⟨0x1000⟩)) :=
  ⟨⟨by decide, (reset_fills_all_slots 7).1 3 (by decide)⟩,
    ⟨by decide, (reset_fills_all_slots 7).2 ⟨0x1000⟩ (by decide)⟩⟩

/-- Claim C5: `SetBlockPointer pc fn` writes `fn` into the slot at
`GetArrayIndex pc`, leaves every other slot unchanged, and a dispatch on
a CPU whose PC maps to the same slot invokes exactly `fn` with that CPU
as argument. -/
theorem setBlockPointer_updates_one_slot (l : BlockFunctionLookup) (pc fn : Nat) :
    (l.SetBlockPointer pc fn).m_slots (BlockFunctionLookup.GetArrayIndex pc) = fn ∧
    (∀ i, i ≠ BlockFunctionLookup.GetArrayIndex pc →
      (l.SetBlockPointer pc fn).m_slots i = l.m_slots i) ∧
    ∀ cpu : Core,
      BlockFunctionLookup.GetArrayIndex cpu.pc = BlockFunctionLookup.GetArrayIndex pc →
      (l.SetBlockPointer pc fn).Dispatch cpu = (fn, cpu) := by
  refine ⟨by simp [BlockFunctionLookup.SetBlockPointer],
    fun i hi => by simp [BlockFunctionLookup.SetBlockPointer, hi],
    fun cpu hc => by
      simp [BlockFunctionLookup.Dispatch, BlockFunctionLookup.SetBlockPointer, hc]⟩

/-- Claim C5, witness: writing slot `GetArrayIndex 0x2000` of a reset
table, slot 0 keeps its old value, and dispatch at PC 0x2000 invokes the
new pointer. -/
theorem setBlockPointer_updates_one_slot_witness :
    ((BlockFunctionLookup.Reset 3).SetBlockPointer 0x2000 9).m_slots
        (BlockFunctionLookup.GetArrayIndex 0x2000) = 9 ∧
    ((0 : Nat) ≠ BlockFunctionLookup.GetArrayIndex 0x2000 ∧
      ((BlockFunctionLookup.Reset 3).SetBlockPointer 0x2000 9).m_slots 0 =
        (BlockFunctionLookup.Reset 3).m_slots 0) ∧
    ((BlockFunctionLookup.Reset 3).SetBlockPointer 0x2000 9).Dispatch ⟨0x2000⟩ =
      (9, ⟨0x2000⟩) :=
  ⟨(setBlockPointer_updates_one_slot (BlockFunctionLookup.Reset 3) 0x2000 9).1,
    ⟨by decide,
      (setBlockPointer_updates_one_slot (BlockFunctionLookup.Reset 3) 0x2000 9).2.1
        0 (by decide)⟩,
    (setBlockPointer_updates_one_slot (BlockFunctionLookup.Reset 3) 0x2000 9).2.2
      ⟨0x2000⟩ rfl⟩

/-- Claim C2, counterexample: PC `0x1F000000` has a physical address
outside both the RAM and the BIOS ranges, yet `GetArrayIndex` masks it to
slot 0 and `Dispatch` silently invokes the function stored there — no
error condition is raised, contradicting "such a PC is never silently
dispatched to a slot". -/
theorem dispatch_out_of_range_counterexample :
    inRAMOrBIOS 0x1F000000 = false ∧
    BlockFunctionLookup.GetArrayIndex 0x1F000000 = 0 ∧
    (BlockFunctionLookup.Reset 7).Dispatch ⟨0x1F000000⟩ = (7, ⟨0x1F000000⟩) :=
  ⟨by decide, by decide, rfl⟩

/-- Claim C2, amended: the code has no `InvalidDispatchTarget` error
path; a PC whose physical address lies outside the RAM and BIOS ranges is
masked by `GetArrayIndex` into a valid slot (so no out-of-bounds access
or crash occurs) and `Dispatch` silently invokes the function stored in
that slot; the table itself is not mutated by the lookup. -/
theorem dispatch_out_of_range_amended (l : BlockFunctionLookup) (pc : Nat)
    (_h : inRAMOrBIOS pc = false) :
    BlockFunctionLookup.GetArrayIndex pc < TOTAL_SLOT_COUNT ∧
    l.Dispatch ⟨pc⟩ = (l.m_slots (BlockFunctionLookup.GetArrayIndex pc), ⟨pc⟩) :=
  ⟨getArrayIndex_lt_total pc, rfl⟩

/-- Claim C2, witness: the amended behavior evaluated at the out-of-range
PC `0x1F000000` on a reset table. -/
theorem dispatch_out_of_range_amended_witness :
    inRAMOrBIOS 0x1F000000 = false ∧
    (BlockFunctionLookup.GetArrayIndex 0x1F000000 < TOTAL_SLOT_COUNT ∧
      (BlockFunctionLookup.Reset 5).Dispatch ⟨0x1F000000⟩ =
        ((BlockFunctionLookup.Reset 5).m_slots
          (BlockFunctionLookup.GetArrayIndex 0x1F000000), ⟨0x1F000000⟩)) :=
  ⟨by decide,
    dispatch_out_of_range_amended (BlockFunctionLookup.Reset 5) 0x1F000000
      (by decide)⟩

/-- Claim C1: after `InvalidateBlocksWithPageIndex p`, every block
overlapping page `p` has `invalidated = true` and empty predecessor and
successor link lists, and the primary table keeps every block (same keys,
in order — nothing is freed or removed). -/
theorem invalidatePage_marks_and_unlinks (st : List CodeBlock) (p : Nat) :
    ((InvalidateBlocksWithPageIndex st p).map fun b => b.key.bits) =
      (st.map fun b => b.key.bits) ∧
    ∀ b ∈ InvalidateBlocksWithPageIndex st p, blockOverlapsPage b p = true →
      b.invalidated = true ∧ b.link_predecessors = [] ∧
        b.link_successors = [] := by
  constructor
  · unfold InvalidateBlocksWithPageIndex
    simp [List.map_map, Function.comp, invalidateOne_key]
  · intro b hb hov
    unfold InvalidateBlocksWithPageIndex at hb
    simp only [List.mem_map] at hb
    obtain ⟨a, ha, rfl⟩ := hb
    rw [invalidateOne_overlap] at hov
    simp [invalidateOne, hov]

/-- Claim C1, witness: invalidating page 0 of the two-block sample state
marks the block at PC 0 invalid and strips its links, while the block
itself stays in the table. -/
theorem invalidatePage_marks_and_unlinks_witness :
    (⟨⟨0⟩, 0, none, [sampleInstruction], [], [], false, true⟩ : CodeBlock) ∈
        InvalidateBlocksWithPageIndex sampleState 0 ∧
    blockOverlapsPage ⟨⟨0⟩, 0, none, [sampleInstruction], [], [], false, true⟩ 0 =
        true ∧
    ((⟨⟨0⟩, 0, none, [sampleInstruction], [], [], false, true⟩ : CodeBlock).invalidated =
        true ∧
      CodeBlock.link_predecessors
          ⟨⟨0⟩, 0, none, [sampleInstruction], [], [], false, true⟩ = [] ∧
      CodeBlock.link_successors
          ⟨⟨0⟩, 0, none, [sampleInstruction], [], [], false, true⟩ = []) :=
  ⟨by decide, by decide,
    (invalidatePage_marks_and_unlinks sampleState 0).2
      ⟨⟨0⟩, 0, none, [sampleInstruction], [], [], false, true⟩ (by decide)
      (by decide)⟩

end CPU
